import Mathlib

/-!
# Verification of the SMS Video Converter conversion engine

Shallow embedding of the decision-and-orchestration core of
`sms_video_converter.py` (v1.0.1, the current script; `ps2_sms_converter.py`
is the older v1.0 of the same program and differs only in its subtitle
extension list and fixed bitrate).

Modelling conventions:
* Python strings are modelled as `String` / `List Char`; the byte-level
  diagnostic stream of the transcoder is modelled as `List Char` (the code
  decodes with `errors="ignore"`, which never fails, so decoding is
  transparent).
* Python floats are embedded as exact arithmetic: the aspect ratio
  `height / width` is a rational, and the literals `0.65` / `0.7` are the
  exact rationals; at every value the claims mention (`0.65`, `0.649999`,
  `0.7`, probe-sized integer dimensions) double arithmetic and exact
  arithmetic order identically.  `int()` applied to a float quotient is
  truncation toward zero, embedded as `Int.tdiv`; `int((h/3)*4)` equals
  `Int.tdiv (h * 4) 3` for every |h| below 2^51, far beyond any pixel count.
  The progress percentage `int(current / duration * 100)`, however, is
  sensitive to double rounding at realistic inputs (29 s of 100 s gives 28,
  not 29), so it is modelled bit-exactly as IEEE-754 binary64 arithmetic
  (`roundFloat` / `pyPercent`), in pure natural-number arithmetic.
* Filesystem and subprocess facts (directory listings, which output paths
  exist, the child's exit code and diagnostic stream) are explicit
  parameters; the code reads them through `os` / `Popen` calls.
-/

namespace SMSVC

/-- `VIDEO_EXTS` from the source (module-level constant). -/
def VIDEO_EXTS : List String :=
  [".mkv", ".mp4", ".avi", ".rmvb", ".rm", ".mov", ".flv", ".mpg", ".mpeg", ".wmv"]

/-- `SUBTITLE_EXTS` from `sms_video_converter.py`. -/
def SUBTITLE_EXTS : List String := [".ass", ".ssa", ".srt"]

/-- `SUBTITLE_EXTS` from the older `ps2_sms_converter.py` (no `.ssa`). -/
def SUBTITLE_EXTS_PS2 : List String := [".ass", ".srt"]

/-- `RESOLUTION_4BY3` from the source. -/
def RESOLUTION_4BY3 : String := "640x480"

/-- `RESOLUTION_16BY9` from the source. -/
def RESOLUTION_16BY9 : String := "854x480"

/-- `AUDIO_BITRATE` from the source. -/
def AUDIO_BITRATE : String := "192k"

/-! ## Python string primitives -/

/-- The whitespace set of Python's `str.strip()` (ASCII part; the diagnostic
stream and file names contain no exotic Unicode whitespace). -/
def isPySpace (c : Char) : Bool :=
  c = ' ' || c = '\t' || c = '\n' || c = '\r' || c = '\x0b' || c = '\x0c'

/-- Python `str.strip()` on a character list. -/
def pyStrip (cs : List Char) : List Char :=
  ((cs.dropWhile isPySpace).reverse.dropWhile isPySpace).reverse

/-- Python `needle in haystack` substring test. -/
def pyIn (needle : List Char) : List Char → Bool
  | [] => needle.isEmpty
  | c :: rest => needle.isPrefixOf (c :: rest) || pyIn needle rest

/-- Python `str.split(sep)` for a one-character separator. -/
def splitOnChar (sep : Char) : List Char → List (List Char)
  | [] => [[]]
  | c :: cs =>
    if c = sep then [] :: splitOnChar sep cs
    else
      match splitOnChar sep cs with
      | [] => [[c]]
      | l :: ls => (c :: l) :: ls

/-- Python `str.rjust(width, fill)`. -/
def rjust (s : String) (width : Nat) (fill : Char) : String :=
  if s.length ≥ width then s
  else String.mk (List.replicate (width - s.length) fill) ++ s

/-- `os.path.basename` for the listing entries the code handles
(POSIX separator). -/
def basename (s : String) : String :=
  String.mk ((s.toList.reverse.takeWhile (fun c => c ≠ '/')).reverse)

/-- `os.path.splitext`: split at the last dot, unless every character before
that dot is itself a dot (then the whole name is the root).  Listing entries
carry no directory separators. -/
def splitext (s : String) : String × String :=
  let cs := s.toList
  let extLen := (cs.reverse.takeWhile (fun c => c ≠ '.')).length
  if extLen = cs.length then (s, "")            -- no dot at all
  else
    let rootLen := cs.length - extLen - 1        -- index of the last dot
    if (cs.take rootLen).all (fun c => c = '.') then (s, "")
    else (String.mk (cs.take rootLen), String.mk (cs.drop rootLen))

/-- `os.path.join(dir, name)` (POSIX). -/
def joinPath (dir name : String) : String := dir ++ "/" ++ name

/-! ## Subtitle Resolver -/

/-- `has_external_subtitle` (lines 178–199): scan the directory listing in
order for a file whose lower-cased extension is in `SUBTITLE_EXTS` and whose
stem contains the source's stem as a substring; first match wins.  The
directory listing returned by `os.listdir(base_dir)` is the `listing`
parameter. -/
def has_external_subtitle (listing : List String) (source : String) : Option String :=
  match listing with
  | [] => none
  | f :: rest =>
    if ((splitext f).2.toLower ∈ SUBTITLE_EXTS)
        && pyIn (splitext source).1.toList (splitext f).1.toList then
      some ("subtitles=" ++ basename f)
    else
      has_external_subtitle rest source

/-- Python `l[i]` for an `int` index: non-negative indices are 0-based from
the front, negative indices count from the back, anything else raises
`IndexError` (here: `none`). -/
def pyIndex {α : Type} (l : List α) (i : Int) : Option α :=
  let j : Int := if i < 0 then (l.length : Int) + i else i
  if 0 ≤ j ∧ j < (l.length : Int) then l[j.toNat]? else none

/-- `has_internal_subtitle` (lines 201–220): index into the subtitle stream
list; on `IndexError` print a warning and return `None`, otherwise return the
ffmpeg directive embedding the source filename and the index.  Subtitle
streams are represented by their probe index numbers. -/
def has_internal_subtitle (source : String) (subtitle_streams : List Nat)
    (subtitle_choice : Int) : Option String :=
  match pyIndex subtitle_streams subtitle_choice with
  | some _ => some ("subtitles=" ++ source ++ ":si=" ++ toString subtitle_choice)
  | none => none

/-! ## Geometry Classifier -/

/-- `output_width = int((resolution['height'] / 3) * 4)` from
`calculate_cropping`: truncation toward zero of `4·h/3`. -/
def output_width (height : Int) : Int := Int.tdiv (height * 4) 3

/-- `cropped_width = int((resolution['width'] - output_width) / 2)`:
truncation toward zero of `(w − output_width)/2`. -/
def cropped_width (width height : Int) : Int :=
  Int.tdiv (width - output_width height) 2

/-- `calculate_cropping` (lines 222–234): the ffmpeg crop filter string.
There is no input validation anywhere in this function. -/
def calculate_cropping (width height : Int) : String :=
  "crop=" ++ toString (output_width height) ++ ":" ++ toString height ++ ":"
    ++ toString (cropped_width width height) ++ ":0"

/-- The per-file record built in `get_sources` (lines 279–285): the aspect
ratio `height / width` (the only place a nonpositive dimension can fail, a
`ZeroDivisionError` when `width = 0`) and the unconditional crop command. -/
def sourceEntry (video : String) (width height : Int) :
    Except String (String × ℚ × String) :=
  if width = 0 then .error "ZeroDivisionError"
  else .ok (video, (height : ℚ) / (width : ℚ), calculate_cropping width height)

/-! ## Parameter Planner -/

/-- The crop/resolution decision of `main` (lines 431–437): default 16:9;
crop and force 4:3 when cropping is requested and the ratio is strictly below
`0.65`; force 4:3 (crop untouched) when the ratio is at least `0.7`. -/
def planCropRes (should_crop : Bool) (ratio : ℚ) (crop_cmd : String) :
    Option String × String :=
  let base : Option String × String :=
    if should_crop ∧ ratio < (0.65 : ℚ) then (some crop_cmd, RESOLUTION_4BY3)
    else (none, RESOLUTION_16BY9)
  if ratio ≥ (0.7 : ℚ) then (base.1, RESOLUTION_4BY3) else base

/-! ## Transcode Runner — timestamp parsing

The code extracts `HH:MM:SS.ms` timestamps with the regexes
`Duration: (\d+:\d+:\d+\.\d+)` and `time=(\d+:\d+:\d+\.\d+)`.  Since the
delimiters `:` and `.` are not digits, the greedy `\d+` atoms never
backtrack, so regex matching is exactly: at the leftmost position where the
literal text is followed by four digit runs separated by `:`, `:`, `.`,
capture those runs.  The functions below implement that directly. -/

/-- A (possibly empty) leading digit run and the rest. -/
def takeDigits (cs : List Char) : List Char × List Char :=
  (cs.takeWhile Char.isDigit, cs.dropWhile Char.isDigit)

/-- Match `\d+:\d+:\d+\.\d+` at the head of the list; return the matched
text. -/
def matchClock (cs : List Char) : Option (List Char) :=
  let (d1, r1) := takeDigits cs
  if d1.isEmpty then none else
  match r1 with
  | ':' :: r2 =>
    let (d2, r3) := takeDigits r2
    if d2.isEmpty then none else
    match r3 with
    | ':' :: r4 =>
      let (d3, r5) := takeDigits r4
      if d3.isEmpty then none else
      match r5 with
      | '.' :: r6 =>
        let (d4, _) := takeDigits r6
        if d4.isEmpty then none
        else some (d1 ++ ':' :: d2 ++ ':' :: d3 ++ '.' :: d4)
      | _ => none
    | _ => none
  | _ => none

/-- `re.search(lit + r'(\d+:\d+:\d+\.\d+)', line)`: the captured group at
the leftmost position where the literal is immediately followed by a clock
timestamp. -/
def searchClockAfter (lit : List Char) : List Char → Option (List Char)
  | [] => if lit.isEmpty then matchClock [] else none
  | c :: cs =>
    match (if lit.isPrefixOf (c :: cs) then matchClock ((c :: cs).drop lit.length) else none) with
    | some g => some g
    | none => searchClockAfter lit cs

/-- The literal part of the duration regex. -/
def durationLit : List Char := "Duration: ".toList

/-- The literal part of the current-position regex. -/
def timeLit : List Char := "time=".toList

/-- Python `int(s)` on the digit runs the regex delivers. -/
def parseNatDigits (cs : List Char) : Option Nat :=
  if cs.isEmpty || !cs.all Char.isDigit then none
  else some (cs.foldl (fun acc c => acc * 10 + (c.toNat - 48)) 0)

/-- `sum([a * b for a, b in zip([3600, 60, 1], map(int, t.split('.')[0].split(':')))])`:
drop the fractional part, split on `:` and weight the (up to three) leading
fields by 3600/60/1.  `zip` is lazy, so only the fields it consumes are ever
parsed. -/
def clockToSeconds (cs : List Char) : Option Nat :=
  let whole := (splitOnChar '.' cs).headD []
  let used := (splitOnChar ':' whole).take 3
  if (used.map parseNatDigits).all Option.isSome then
    some ((List.zip [3600, 60, 1] (used.map (fun p => (parseNatDigits p).getD 0))).map
      (fun ab => ab.1 * ab.2)).sum
  else none

/-! ## Transcode Runner — the progress-percentage arithmetic

Line 400 computes `int(current_time / duration * 100)` in IEEE-754 binary64
("double") arithmetic: the integer quotient is correctly rounded to a
double, multiplied by the exact double 100 with another rounding, and
truncated toward zero.  This is NOT the exact `floor(current * 100 /
duration)`: at duration 100 and current 29 the doubles give 28.  The
functions below model that arithmetic bit-exactly, in pure natural-number
arithmetic so that concrete values evaluate. -/

/-- Round-to-nearest, ties-to-even, of the rational `num / den` to an
integer (callers pass `den > 0`). -/
def roundNE (num den : Nat) : Nat :=
  let q := num / den
  let r := num % den
  if 2 * r < den then q
  else if den < 2 * r then q + 1
  else if q % 2 = 0 then q else q + 1

/-- Decide `2 ^ e ≤ m / n` for an integer exponent `e`. -/
def le2pow (e : Int) (m n : Nat) : Bool :=
  if 0 ≤ e then n * 2 ^ e.toNat ≤ m else n ≤ m * 2 ^ (-e).toNat

/-- Downward scan for the largest `e` in `[-1023, 1023]` with
`2 ^ e ≤ m / n` (the fuel `k + 1` stands for exponent `k - 1023`); callers
restrict to values whose binade lies in the binary64 range. -/
def findExpAux (m n : Nat) : Nat → Int
  | 0 => -1075
  | k + 1 => if le2pow ((k : Int) - 1023) m n then (k : Int) - 1023 else findExpAux m n k

/-- The binade of `m / n` within the binary64 exponent range. -/
def findExp (m n : Nat) : Int := findExpAux m n 2047

/-- The correctly rounded (round-to-nearest, ties-to-even) IEEE-754 binary64
value of `m / n` (for `n > 0`), as a pair `(sig, exp)` with value
`sig * 2 ^ exp`; `none` means overflow to infinity.  Normal values carry a
53-bit significand; subnormal results (gradual underflow, exponent `-1074`)
and the rounding carry into the next binade are handled. -/
def roundFloat (m n : Nat) : Option (Nat × Int) :=
  if m = 0 then some (0, 0)
  else if m * 2 ^ 1022 < n then
    some (roundNE (m * 2 ^ 1074) n, -1074)
  else
    let e := findExp m n
    let s := roundNE (m * 2 ^ (52 - e).toNat) (n * 2 ^ (e - 52).toNat)
    if s < 2 ^ 53 then some (s, e - 52)
    else if e < 1023 then some (2 ^ 52, e - 51)
    else none

/-- The exact value of `int(c / d * 100)` as CPython evaluates it, or
`none` when the expression raises (all three raises are swallowed by the
bare `except` around line 400): `d = 0` raises ZeroDivisionError; the
int/int true division `c / d` is correctly rounded to a double and raises
OverflowError when the rounded result would exceed the largest double; the
double is then multiplied by the exact double 100 with one more rounding
(overflowing silently to infinity, on which `int()` raises OverflowError);
`int()` truncates the nonnegative product toward zero.  Validated against
CPython on the boundary examples and several hundred random inputs. -/
def pyPercent (c d : Nat) : Option Nat :=
  if d = 0 then none
  else
    match roundFloat c d with
    | none => none
    | some (s, e) =>
      match (if 0 ≤ e then roundFloat (s * 100 * 2 ^ e.toNat) 1
             else roundFloat (s * 100) (2 ^ (-e).toNat)) with
      | none => none
      | some (s2, e2) =>
        some (if 0 ≤ e2 then s2 * 2 ^ e2.toNat else s2 / 2 ^ (-e2).toNat)

/-! ## Transcode Runner — diagnostic stream loop (lines 369–408) -/

/-- The mutable state of the read-progress loop in `convert`. -/
structure ConvState where
  buffer : List Char
  all_stderr : List Char
  duration : Option Nat
  emitted : List Nat
  deriving Repr, DecidableEq

/-- The initial loop state. -/
def initConvState : ConvState := ⟨[], [], none, []⟩

/-- The body of the `try` block run on each completed (already stripped)
line: append the line to `all_stderr`; on the first `Duration:` match set the
total duration; on a `time=` match emit `int(current / duration * 100)` —
evaluated in double arithmetic, see `pyPercent` — when the duration is
known.  A `None` duration (`TypeError`), a zero duration
(`ZeroDivisionError`) or an overflowing quotient (`OverflowError`) is
swallowed by the bare `except`, after the line was already recorded. -/
def processLine (st : ConvState) (line : List Char) : ConvState :=
  let stderr' := st.all_stderr ++ line ++ ['\n']
  let dur' : Option Nat :=
    match st.duration with
    | some d => some d
    | none => (searchClockAfter durationLit line).bind clockToSeconds
  let em' : List Nat :=
    match (searchClockAfter timeLit line).bind clockToSeconds with
    | some c =>
      match dur' with
      | some d =>
        match pyPercent c d with
        | some p => st.emitted ++ [p]
        | none => st.emitted
      | none => st.emitted
    | none => st.emitted
  { buffer := st.buffer, all_stderr := stderr', duration := dur', emitted := em' }

/-- One iteration of the byte-reading loop: append the byte to the buffer;
on a carriage return, strip the buffered line, reset the buffer and run the
line processing. -/
def consumeChar (st : ConvState) (c : Char) : ConvState :=
  if c = '\r' then
    processLine { st with buffer := [] } (pyStrip (st.buffer ++ [c]))
  else
    { st with buffer := st.buffer ++ [c] }

/-- Run the read-progress loop over a whole diagnostic stream (the loop ends
at EOF). -/
def runConv (stream : List Char) : ConvState :=
  stream.foldl consumeChar initConvState

/-- The accumulated diagnostic text `all_stderr` for a stream. -/
def convDiag (stream : List Char) : String := String.mk (runConv stream).all_stderr

/-- The tail of `convert` (lines 405–408): exit code 0 is success, anything
else raises `Exception(all_stderr)` after printing the failure-marked
progress label. -/
def convertResult (stream : List Char) (returncode : Int) : Except String Unit :=
  if returncode ≠ 0 then .error (convDiag stream) else .ok ()

/-- The `'{progress_msg} Failed'` line printed before the raise. -/
def failureStatusLine (progress_msg : String) : String := progress_msg ++ " Failed"

/-! ### Specification-side decomposition of the stream into lines -/

/-- The successive complete (carriage-return-terminated) segments of a
stream, starting from a partially filled buffer; the terminator is not
included in the segment. -/
def crChunksAux (b : List Char) : List Char → List (List Char)
  | [] => []
  | c :: cs => if c = '\r' then b :: crChunksAux [] cs else crChunksAux (b ++ [c]) cs

/-- The carriage-return-terminated segments of a stream. -/
def crChunks (stream : List Char) : List (List Char) := crChunksAux [] stream

/-- What remains buffered after the last carriage return. -/
def crRestAux (b : List Char) : List Char → List Char
  | [] => b
  | c :: cs => if c = '\r' then crRestAux [] cs else crRestAux (b ++ [c]) cs

/-- The bytes of a stream following its last carriage return. -/
def crRest (stream : List Char) : List Char := crRestAux [] stream

/-! ## Batch Coordinator (`main`, lines 411–452) -/

/-- The user's subtitle preference: `subtitle_choice` is `None`, the string
`'ext'`, or an `int` track index. -/
inductive SubChoice where
  | nosub : SubChoice
  | ext : SubChoice
  | internal (index : Int) : SubChoice
  deriving Repr, DecidableEq

/-- The options collected before the batch, together with the directory
listing `os.listdir(base_dir)` sees and the chosen output directory. -/
structure Config where
  v_bitrate : String
  should_crop : Bool
  subtitle_choice : SubChoice
  overwrite_output : Bool
  listing : List String
  output_dir : String
  deriving Repr, DecidableEq

/-- One entry of `source_list` (built by `get_sources`), together with the
behaviour of the external transcoder on it: its exit code and the diagnostic
stream it writes on stderr. -/
structure SrcFile where
  video : String
  ratio : ℚ
  crop_cmd : String
  subtitles : List Nat
  returncode : Int
  stderrStream : List Char
  deriving Repr, DecidableEq

/-- A per-file outcome.  A completed conversion records the plan that was
handed to the transcoder (crop filter, target resolution, subtitle filter). -/
inductive Outcome where
  | completed (crop : Option String) (resolution : String) (subtitle : Option String) : Outcome
  | skipped : Outcome
  | failed (diag : String) : Outcome
  deriving Repr, DecidableEq

/-- The per-file progress label
`f"\r {str(count).rjust(count_padding, ' ')}/{len(source_list)}: Converting {video}..."`. -/
def progressLabel (count total : Nat) (video : String) : String :=
  "\r " ++ rjust (toString count) (toString total).length ' ' ++ "/" ++ toString total
    ++ ": Converting " ++ video ++ "..."

/-- The subtitle resolution step of `main` (lines 439–448). -/
def resolveSubtitle (cfg : Config) (f : SrcFile) : Option String :=
  match cfg.subtitle_choice with
  | .nosub => none
  | .ext => has_external_subtitle cfg.listing f.video
  | .internal i => has_internal_subtitle f.video f.subtitles i

/-- The body of the batch loop.  State: `count` (starts at 1, incremented
only after a completed conversion) and the set of paths that currently exist
in the filesystem (`fs`).  On a failed conversion the `raise` in `convert`
propagates out of `main`, so the recursion stops.  A successful conversion
creates its output file. -/
def runBatchAux (cfg : Config) (total : Nat) :
    List SrcFile → Nat → List String → List (String × Outcome)
  | [], _, _ => []
  | f :: rest, count, fs =>
    let label := progressLabel count total f.video
    let output := joinPath cfg.output_dir ((splitext f.video).1 ++ ".avi")
    if fs.contains output ∧ ¬cfg.overwrite_output then
      (label, .skipped) :: runBatchAux cfg total rest count fs
    else
      let fs' := fs.erase output
      let plan := planCropRes cfg.should_crop f.ratio f.crop_cmd
      let subtitle := resolveSubtitle cfg f
      if f.returncode ≠ 0 then
        [(label, .failed (convDiag f.stderrStream))]
      else
        (label, .completed plan.1 plan.2 subtitle)
          :: runBatchAux cfg total rest (count + 1) (output :: fs')

/-- The batch loop of `main` over the scanned source list, given the paths
that exist in the output directory before the run starts. -/
def runBatch (cfg : Config) (sources : List SrcFile) (existing : List String) :
    List (String × Outcome) :=
  runBatchAux cfg sources.length sources 1 existing

/-! # Helper lemmas -/

theorem pyStrip_append_cr (b : List Char) : pyStrip (b ++ ['\r']) = pyStrip b := by
  unfold pyStrip
  rw [List.dropWhile_append]
  by_cases h : (List.dropWhile isPySpace b).isEmpty
  · rw [if_pos h, List.isEmpty_iff.mp h]
    rfl
  · rw [if_neg h, List.reverse_append]
    simp only [List.reverse_cons, List.reverse_nil, List.nil_append, List.singleton_append]
    rw [List.dropWhile_cons_of_pos (by decide : isPySpace '\r' = true)]

theorem processLine_buffer (st : ConvState) (line : List Char) :
    (processLine st line).buffer = st.buffer := rfl

theorem processLine_stderr (st : ConvState) (line : List Char) :
    (processLine st line).all_stderr = st.all_stderr ++ line ++ ['\n'] := rfl

theorem processLine_dur_some (st : ConvState) (line : List Char) (d : Nat)
    (hd : st.duration = some d) : (processLine st line).duration = some d := by
  simp [processLine, hd]

theorem processLine_of_dur_unfound (st : ConvState) (line : List Char)
    (hd : st.duration = none)
    (hmatch : searchClockAfter durationLit line = none) :
    (processLine st line).duration = none
      ∧ (processLine st line).emitted = st.emitted := by
  cases hts : (searchClockAfter timeLit line).bind clockToSeconds with
  | none => simp [processLine, hd, hmatch, hts]
  | some c => simp [processLine, hd, hmatch, hts]

theorem processLine_emit (st : ConvState) (line : List Char) (d c : Nat)
    (ts : List Char) (p : Nat) (hd : st.duration = some d)
    (hts : searchClockAfter timeLit line = some ts)
    (hc : clockToSeconds ts = some c)
    (hp : pyPercent c d = some p) :
    (processLine st line).emitted = st.emitted ++ [p] := by
  simp [processLine, hd, hts, hc, hp]

theorem processLine_emit_none (st : ConvState) (line : List Char) (d c : Nat)
    (ts : List Char) (hd : st.duration = some d)
    (hts : searchClockAfter timeLit line = some ts)
    (hc : clockToSeconds ts = some c)
    (hp : pyPercent c d = none) :
    (processLine st line).emitted = st.emitted := by
  simp [processLine, hd, hts, hc, hp]

theorem consumeChar_cr (st : ConvState) :
    consumeChar st '\r'
      = processLine { st with buffer := [] } (pyStrip (st.buffer ++ ['\r'])) := by
  simp [consumeChar]

theorem consumeChar_ne (st : ConvState) (c : Char) (h : ¬c = '\r') :
    consumeChar st c = { st with buffer := st.buffer ++ [c] } := by
  simp [consumeChar, h]

theorem crChunksAux_cr (b : List Char) (cs : List Char) :
    crChunksAux b ('\r' :: cs) = b :: crChunksAux [] cs := by
  simp [crChunksAux]

theorem crChunksAux_ne (b : List Char) (c : Char) (cs : List Char) (h : ¬c = '\r') :
    crChunksAux b (c :: cs) = crChunksAux (b ++ [c]) cs := by
  simp [crChunksAux, h]

theorem crRestAux_cr (b : List Char) (cs : List Char) :
    crRestAux b ('\r' :: cs) = crRestAux [] cs := by
  simp [crRestAux]

theorem crRestAux_ne (b : List Char) (c : Char) (cs : List Char) (h : ¬c = '\r') :
    crRestAux b (c :: cs) = crRestAux (b ++ [c]) cs := by
  simp [crRestAux, h]

theorem consume_fold_lines :
    ∀ (cs : List Char) (st : ConvState),
      (List.foldl consumeChar st cs).all_stderr
          = st.all_stderr
              ++ (List.map (fun l => pyStrip l ++ ['\n']) (crChunksAux st.buffer cs)).flatten
        ∧ (List.foldl consumeChar st cs).buffer = crRestAux st.buffer cs := by
  intro cs
  induction cs with
  | nil => intro st; simp [crChunksAux, crRestAux]
  | cons c cs ih =>
    intro st
    rw [List.foldl_cons]
    by_cases hc : c = '\r'
    · subst hc
      rw [consumeChar_cr, crChunksAux_cr, crRestAux_cr, pyStrip_append_cr]
      have h := ih (processLine { st with buffer := [] } (pyStrip st.buffer))
      rw [processLine_buffer, processLine_stderr] at h
      refine ⟨h.1.trans ?_, h.2⟩
      simp [List.append_assoc]
    · rw [consumeChar_ne st c hc, crChunksAux_ne _ _ _ hc, crRestAux_ne _ _ _ hc]
      exact ih { st with buffer := st.buffer ++ [c] }

theorem consume_fold_no_duration :
    ∀ (cs : List Char) (st : ConvState),
      st.duration = none →
      (∀ l ∈ crChunksAux st.buffer cs,
        searchClockAfter durationLit (pyStrip l) = none) →
      (List.foldl consumeChar st cs).duration = none
        ∧ (List.foldl consumeChar st cs).emitted = st.emitted := by
  intro cs
  induction cs with
  | nil => intro st hd _; exact ⟨hd, rfl⟩
  | cons c cs ih =>
    intro st hd hlines
    rw [List.foldl_cons]
    by_cases hc : c = '\r'
    · subst hc
      rw [consumeChar_cr]
      have hhead : searchClockAfter durationLit (pyStrip st.buffer) = none := by
        apply hlines
        rw [crChunksAux_cr]
        exact List.mem_cons_self _ _
      have hstep := processLine_of_dur_unfound { st with buffer := [] }
        (pyStrip (st.buffer ++ ['\r'])) hd (by rw [pyStrip_append_cr]; exact hhead)
      have h := ih _ hstep.1 (by
        intro l hl
        apply hlines
        rw [crChunksAux_cr]
        rw [processLine_buffer] at hl
        exact List.mem_cons_of_mem _ hl)
      exact ⟨h.1, h.2.trans hstep.2⟩
    · rw [consumeChar_ne st c hc]
      refine ih { st with buffer := st.buffer ++ [c] } hd ?_
      intro l hl
      apply hlines
      rw [crChunksAux_ne _ _ _ hc]
      exact hl

theorem splitOnChar_of_no_sep (sep : Char) :
    ∀ (cs : List Char), (∀ c ∈ cs, c ≠ sep) → splitOnChar sep cs = [cs] := by
  intro cs
  induction cs with
  | nil => intro _; rfl
  | cons c cs ih =>
    intro h
    have hc : ¬c = sep := h c (List.mem_cons_self _ _)
    rw [splitOnChar, if_neg hc, ih (fun x hx => h x (List.mem_cons_of_mem _ hx))]

theorem splitOnChar_append_sep (sep : Char) :
    ∀ (xs ys : List Char), (∀ c ∈ xs, c ≠ sep) →
      splitOnChar sep (xs ++ sep :: ys) = xs :: splitOnChar sep ys := by
  intro xs
  induction xs with
  | nil =>
    intro ys _
    rw [List.nil_append, splitOnChar, if_pos rfl]
  | cons x xs ih =>
    intro ys h
    have hx : ¬x = sep := h x (List.mem_cons_self _ _)
    rw [List.cons_append, splitOnChar, if_neg hx,
      ih ys (fun c hc => h c (List.mem_cons_of_mem _ hc))]

theorem parseNatDigits_digits {ds : List Char} {v : Nat}
    (h : parseNatDigits ds = some v) : ds.all Char.isDigit = true := by
  by_cases hc : (ds.isEmpty || !ds.all Char.isDigit) = true
  · rw [parseNatDigits, if_pos hc] at h
    cases h
  · rw [Bool.or_eq_true, not_or] at hc
    simpa using hc.2

theorem digit_ne_colon_dot {c : Char} (h : c.isDigit = true) : c ≠ ':' ∧ c ≠ '.' := by
  constructor
  · rintro rfl; exact absurd h (by decide)
  · rintro rfl; exact absurd h (by decide)

theorem pyIndex_isSome {α : Type} (l : List α) (i : Int) :
    (pyIndex l i).isSome = true ↔ (-(l.length : Int) ≤ i ∧ i < (l.length : Int)) := by
  unfold pyIndex
  by_cases hneg : i < 0
  · simp only [hneg, if_true]
    by_cases hin : (0 : Int) ≤ (l.length : Int) + i ∧ (l.length : Int) + i < (l.length : Int)
    · rw [if_pos hin]
      have hlt : ((l.length : Int) + i).toNat < l.length := by omega
      simp only [List.getElem?_eq_getElem hlt, Option.isSome_some, true_iff]
      omega
    · rw [if_neg hin]
      simp only [Option.isSome_none, Bool.false_eq_true, false_iff]
      omega
  · simp only [hneg, if_false]
    by_cases hin : (0 : Int) ≤ i ∧ i < (l.length : Int)
    · rw [if_pos hin]
      have hlt : i.toNat < l.length := by omega
      simp only [List.getElem?_eq_getElem hlt, Option.isSome_some, true_iff]
      omega
    · rw [if_neg hin]
      simp only [Option.isSome_none, Bool.false_eq_true, false_iff]
      omega

theorem runBatchAux_failed_last (cfg : Config) (total : Nat) :
    ∀ (sources : List SrcFile) (count : Nat) (fs : List String)
      (l₁ : List (String × Outcome)) (lbl : String) (d : String)
      (l₂ : List (String × Outcome)),
      runBatchAux cfg total sources count fs = l₁ ++ (lbl, Outcome.failed d) :: l₂ →
      l₂ = [] := by
  intro sources
  induction sources with
  | nil =>
    intro count fs l₁ lbl d l₂ h
    rw [runBatchAux] at h
    exact absurd h.symm (List.append_ne_nil_of_right_ne_nil _ (List.cons_ne_nil _ _))
  | cons f rest ih =>
    intro count fs l₁ lbl d l₂ h
    rw [runBatchAux] at h
    split at h
    · -- skipped
      cases l₁ with
      | nil =>
        rw [List.nil_append] at h
        cases h
      | cons e l₁ =>
        rw [List.cons_append] at h
        exact ih count fs l₁ lbl d l₂ (List.cons.inj h).2
    · split at h
      · -- failed: singleton result
        cases l₁ with
        | nil =>
          rw [List.nil_append] at h
          exact (List.cons.inj h).2.symm
        | cons e l₁ =>
          rw [List.cons_append] at h
          exact absurd (List.cons.inj h).2.symm
            (List.append_ne_nil_of_right_ne_nil _ (List.cons_ne_nil _ _))
      · -- completed
        cases l₁ with
        | nil =>
          rw [List.nil_append] at h
          cases h
        | cons e l₁ =>
          rw [List.cons_append] at h
          exact ih _ _ l₁ lbl d l₂ (List.cons.inj h).2

theorem planCropRes_eq (sc : Bool) (r : ℚ) (cc : String) :
    planCropRes sc r cc
      = ((if sc = true ∧ r < (0.65 : ℚ) then some cc else none),
         (if (sc = true ∧ r < (0.65 : ℚ)) ∨ r ≥ (0.7 : ℚ) then RESOLUTION_4BY3
          else RESOLUTION_16BY9)) := by
  by_cases h1 : sc = true ∧ r < (0.65 : ℚ) <;> by_cases h2 : r ≥ (0.7 : ℚ) <;>
    simp [planCropRes, h1, h2]

/-! # The claims -/

/-- C1: the crop rectangle is applied iff the crop flag is set and the
aspect ratio `height/width` is strictly below `0.65`; the target resolution
is the 4:3 preset iff (crop flag ∧ ratio < 0.65) or ratio ≥ 0.7 (inclusive),
and the 16:9 preset otherwise; `0.65` exactly is not crop-eligible and `0.7`
exactly forces 4:3. -/
theorem C1_threshold_classification :
    ∀ (sc : Bool) (r : ℚ) (cc : String),
      ((planCropRes sc r cc).1 = some cc ↔ (sc = true ∧ r < (0.65 : ℚ)))
      ∧ ((planCropRes sc r cc).2 = RESOLUTION_4BY3
          ↔ ((sc = true ∧ r < (0.65 : ℚ)) ∨ r ≥ (0.7 : ℚ)))
      ∧ ((planCropRes sc r cc).2 ≠ RESOLUTION_4BY3
          → (planCropRes sc r cc).2 = RESOLUTION_16BY9)
      ∧ (planCropRes true (0.65 : ℚ) cc).1 = none
      ∧ (planCropRes sc (0.7 : ℚ) cc).2 = RESOLUTION_4BY3 := by
  intro sc r cc
  have hne : RESOLUTION_16BY9 ≠ RESOLUTION_4BY3 := by decide
  refine ⟨?_, ?_, ?_, ?_, ?_⟩
  · rw [planCropRes_eq]
    by_cases h : sc = true ∧ r < (0.65 : ℚ) <;> simp [h]
  · rw [planCropRes_eq]
    by_cases h : (sc = true ∧ r < (0.65 : ℚ)) ∨ r ≥ (0.7 : ℚ) <;> simp [h, hne]
  · rw [planCropRes_eq]
    by_cases h : (sc = true ∧ r < (0.65 : ℚ)) ∨ r ≥ (0.7 : ℚ) <;> simp [h]
  · rw [planCropRes_eq,
      if_neg (fun hh => absurd hh.2 (by norm_num : ¬(0.65 : ℚ) < 0.65))]
  · rw [planCropRes_eq, if_pos (Or.inr (le_refl (0.7 : ℚ)))]

/-- C1 witness: at ratio `0.6` with the crop flag set, the crop rectangle is
applied and the resolution is the 4:3 preset; at ratio `0.68` (the dead
zone) with no crop flag the resolution stays 16:9. -/
theorem C1_threshold_classification_witness :
    (planCropRes true (0.6 : ℚ) "c").1 = some "c"
    ∧ (planCropRes true (0.6 : ℚ) "c").2 = RESOLUTION_4BY3
    ∧ (planCropRes false (0.68 : ℚ) "c").2 = RESOLUTION_16BY9 := by
  refine ⟨(C1_threshold_classification true (0.6 : ℚ) "c").1.mpr ⟨rfl, by norm_num⟩,
    (C1_threshold_classification true (0.6 : ℚ) "c").2.1.mpr
      (Or.inl ⟨rfl, by norm_num⟩), ?_⟩
  refine (C1_threshold_classification false (0.68 : ℚ) "c").2.2.1 (fun he => ?_)
  rcases (C1_threshold_classification false (0.68 : ℚ) "c").2.1.mp he with ⟨hf, _⟩ | hge
  · cases hf
  · exact absurd hge (by norm_num)

/-- C3 counterexample: with one available track, the requested index `-1` is
not a valid 0-based position, yet `has_internal_subtitle` returns a directive
(Python's negative indexing wraps around instead of raising `IndexError`). -/
theorem C3_counterexample :
    has_internal_subtitle "v.mkv" [7] (-1) = some "subtitles=v.mkv:si=-1"
      ∧ ¬(0 ≤ (-1 : Int)) := by
  exact ⟨rfl, by decide⟩

/-- C3 (amended): `has_internal_subtitle` returns the directive embedding the
source filename and the index exactly when the index is valid under Python
list indexing, i.e. `-length ≤ index < length`; for every other index —
in particular every index on an empty track list — it returns no directive
(the `IndexError` is caught and logged, never propagated).  For non-negative
indices this is precisely `0 ≤ index < length`, as the original claim
states. -/
theorem C3_internal_resolution :
    ∀ (source : String) (streams : List Nat) (i : Int),
      has_internal_subtitle source streams i
        = if -(streams.length : Int) ≤ i ∧ i < (streams.length : Int)
          then some ("subtitles=" ++ source ++ ":si=" ++ toString i)
          else none := by
  intro source streams i
  rcases hp : pyIndex streams i with _ | x
  · have hcond : ¬(-(streams.length : Int) ≤ i ∧ i < (streams.length : Int)) := by
      intro hc
      have := (pyIndex_isSome streams i).mpr hc
      rw [hp] at this
      cases this
    simp [has_internal_subtitle, hp, hcond]
  · have hcond : -(streams.length : Int) ≤ i ∧ i < (streams.length : Int) :=
      (pyIndex_isSome streams i).mp (by rw [hp]; rfl)
    simp [has_internal_subtitle, hp, hcond]

/-- C6 counterexample: for width 100 and height 0 ≤ 0 the scan does not fail
at all — it produces the ratio `0` and a crop command, so nonpositive
geometry is not rejected with any `InvalidGeometry` error. -/
theorem C6_counterexample :
    sourceEntry "v.mkv" 100 0 = .ok ("v.mkv", (0 : ℚ), "crop=0:0:50:0")
      ∧ ¬(0 < (0 : Int)) := by
  refine ⟨?_, by decide⟩
  rw [sourceEntry, if_neg (by decide)]
  norm_num
  decide

/-- C6 (amended): the code performs no geometry validation.  The per-file
scan step fails only when `width = 0` (a `ZeroDivisionError` from computing
`height / width`), and succeeds for every other integer geometry — including
zero or negative heights and negative widths — producing the ratio and the
crop command; no `InvalidGeometry` failure exists. -/
theorem C6_no_geometry_validation :
    ∀ (video : String) (width height : Int),
      (sourceEntry video width height = .error "ZeroDivisionError" ↔ width = 0)
      ∧ (sourceEntry video width height
          = .ok (video, (height : ℚ) / (width : ℚ), calculate_cropping width height)
        ↔ width ≠ 0) := by
  intro video width height
  by_cases hw : width = 0 <;> simp [sourceEntry, hw]

/-- C8 counterexample: at width 1, height 3 (both positive) the code's
x-offset is `int((1 - 4)/2) = -1` (truncation toward zero), while the claimed
`floor((width - floor(height*4/3))/2)` is `-2`. -/
theorem C8_counterexample :
    (0 : Int) < 1 ∧ (0 : Int) < 3
      ∧ cropped_width 1 3 = -1
      ∧ Int.fdiv (1 - output_width 3) 2 = -2
      ∧ calculate_cropping 1 3 = "crop=4:3:-1:0" := by
  decide

/-- C8 (amended): for positive geometry the crop command is
`crop=W:H:X:0` with `W = floor(height*4/3)`, `H` the original height and
y-offset `0`; the x-offset is `int((width - W)/2)` with Python's truncation
toward zero, which agrees with the claimed floor — and is nonnegative —
whenever `width ≥ W`. -/
theorem C8_crop_rectangle :
    ∀ (w h : Int), 0 < w → 0 < h →
      output_width h = Int.fdiv (h * 4) 3
      ∧ calculate_cropping w h
          = "crop=" ++ toString (output_width h) ++ ":" ++ toString h ++ ":"
              ++ toString (cropped_width w h) ++ ":0"
      ∧ (output_width h ≤ w →
          cropped_width w h = Int.fdiv (w - output_width h) 2
            ∧ 0 ≤ cropped_width w h) := by
  intro w h hw hh
  have how : 0 ≤ output_width h := Int.tdiv_nonneg (by omega) (by decide)
  refine ⟨?_, rfl, fun hle => ⟨?_, ?_⟩⟩
  · rw [output_width, Int.tdiv_eq_ediv (by omega) (by decide),
      Int.fdiv_eq_ediv _ (by decide)]
  · rw [cropped_width, Int.tdiv_eq_ediv (by omega) (by decide),
      Int.fdiv_eq_ediv _ (by decide)]
  · exact Int.tdiv_nonneg (by omega) (by decide)

/-- C8 witness: the amended claim at the concrete geometry 1920×1080
(`W = 1440`, x-offset `240 ≥ 0`). -/
theorem C8_crop_rectangle_witness :
    cropped_width 1920 1080 = Int.fdiv (1920 - output_width 1080) 2
      ∧ 0 ≤ cropped_width 1920 1080 :=
  (C8_crop_rectangle 1920 1080 (by decide) (by decide)).2.2 (by decide)

/-- C9: external subtitle search returns the directive for the first file in
listing order whose lower-cased extension is a recognized subtitle extension
(`.ass`, `.ssa`, `.srt`) and whose stem contains the source's stem as a
substring, and `none` when no file matches. -/
theorem C9_external_search :
    ∀ (listing : List String) (source : String),
      has_external_subtitle listing source
        = (listing.find? (fun f =>
              ((splitext f).2.toLower ∈ SUBTITLE_EXTS)
                && pyIn (splitext source).1.toList (splitext f).1.toList)).map
            (fun f => "subtitles=" ++ basename f)
      ∧ SUBTITLE_EXTS = [".ass", ".ssa", ".srt"] := by
  intro listing source
  refine ⟨?_, rfl⟩
  induction listing with
  | nil => rfl
  | cons f rest ih =>
    rw [has_external_subtitle, List.find?_cons]
    by_cases hm : (((splitext f).2.toLower ∈ SUBTITLE_EXTS)
        && pyIn (splitext source).1.toList (splitext f).1.toList) = true
    · rw [if_pos hm, hm]
      rfl
    · rw [if_neg hm, Bool.eq_false_iff.mpr hm]
      exact ih

set_option maxRecDepth 100000 in
/-- C4 counterexample: with duration 100 s known, a line carrying the
current position 29 s makes the code emit 28, not the claimed
`floor(29 / 100 * 100) = 29`: line 400 evaluates
`int(current / duration * 100)` in IEEE-754 doubles, and
`29 / 100` rounds below `0.29`, so the product lands just under 29 and the
truncation drops it to 28. -/
theorem C4_counterexample :
    (processLine ⟨[], [], some 100, []⟩ "time=00:00:29.00 bitrate=1k".toList).emitted
        = [28]
    ∧ 29 * 100 / 100 = 29
    ∧ (28 : Nat) ≠ 29 := by
  refine ⟨?_, by decide, by decide⟩
  rw [processLine_emit ⟨[], [], some 100, []⟩ _ 100 29 "00:00:29.00".toList 28
    rfl (by decide) (by decide) (by decide)]
  decide

set_option maxRecDepth 100000 in
/-- C4 (amended): whenever the total duration `d` is already known and a
completed line carries a current-position timestamp of `c` seconds, the loop
emits exactly `int(c / d * 100)` as evaluated in IEEE-754 double arithmetic
(`pyPercent`) — which can fall one below the exact
`floor(c / d * 100)` when rounding pushes the double product under an
integer: duration 100 with current 37 still emits the spec's 37, but current
29 emits 28; values above 100 are not clamped (current 150 of duration 100
emits 150).  When the expression raises (zero duration, overflow) nothing is
emitted and the line is still recorded; and over any stream in which no
duration announcement ever matches, nothing is ever emitted and the loop
does not crash. -/
theorem C4_progress_emission :
    (∀ (st : ConvState) (line : List Char) (d c p : Nat) (ts : List Char),
        st.duration = some d →
        searchClockAfter timeLit line = some ts →
        clockToSeconds ts = some c →
        pyPercent c d = some p →
        (processLine st line).emitted = st.emitted ++ [p])
    ∧ (∀ (st : ConvState) (line : List Char) (d c : Nat) (ts : List Char),
        st.duration = some d →
        searchClockAfter timeLit line = some ts →
        clockToSeconds ts = some c →
        pyPercent c d = none →
        (processLine st line).emitted = st.emitted)
    ∧ pyPercent 37 100 = some 37
    ∧ pyPercent 29 100 = some 28
    ∧ pyPercent 150 100 = some 150
    ∧ (∀ stream : List Char,
        (∀ l ∈ crChunks stream, searchClockAfter durationLit (pyStrip l) = none) →
        (runConv stream).emitted = []) := by
  refine ⟨?_, ?_, by decide, by decide, by decide, ?_⟩
  · exact fun st line d c p ts hd hts hc hp =>
      processLine_emit st line d c ts p hd hts hc hp
  · exact fun st line d c ts hd hts hc hp =>
      processLine_emit_none st line d c ts hd hts hc hp
  · intro stream hno
    exact (consume_fold_no_duration stream initConvState rfl hno).2

set_option maxRecDepth 100000 in
/-- C4 witness: duration 100 s with current position 37 s emits 37; a zero
duration (whose division raises) emits nothing; a stream whose lines never
announce a duration emits nothing. -/
theorem C4_progress_emission_witness :
    (processLine ⟨[], [], some 100, []⟩ "frame=1 time=00:00:37.00 b".toList).emitted = [37]
    ∧ (processLine ⟨[], [], some 0, []⟩ "frame=1 time=00:00:37.00 b".toList).emitted = []
    ∧ (runConv "no duration\rtime=00:00:05.00 x\r".toList).emitted = [] := by
  refine ⟨?_, ?_, ?_⟩
  · rw [C4_progress_emission.1 ⟨[], [], some 100, []⟩ _ 100 37 37 "00:00:37.00".toList
      rfl (by decide) (by decide) (by decide)]
    decide
  · rw [C4_progress_emission.2.1 ⟨[], [], some 0, []⟩ _ 0 37 "00:00:37.00".toList
      rfl (by decide) (by decide) (by decide)]
  · exact C4_progress_emission.2.2.2.2.2 _ (by decide)

/-- C5: a matched `HH:MM:SS.ms` timestamp is converted by dropping the
fractional part and weighting the three clock fields by 3600/60/1
(`"01:02:03.45"` → 3723, `"00:00:00.00"` → 0); and once the duration is set
it is never overwritten — neither by a later line nor by any byte consumed
afterwards. -/
theorem C5_timestamp_conversion :
    (∀ (ds1 ds2 ds3 ds4 : List Char) (v1 v2 v3 : Nat),
        parseNatDigits ds1 = some v1 → parseNatDigits ds2 = some v2 →
        parseNatDigits ds3 = some v3 →
        clockToSeconds (ds1 ++ ':' :: ds2 ++ ':' :: ds3 ++ '.' :: ds4)
          = some (3600 * v1 + 60 * v2 + v3))
    ∧ clockToSeconds "01:02:03.45".toList = some 3723
    ∧ clockToSeconds "00:00:00.00".toList = some 0
    ∧ (∀ (st : ConvState) (line : List Char) (d : Nat),
        st.duration = some d → (processLine st line).duration = some d)
    ∧ (∀ (st : ConvState) (c : Char) (d : Nat),
        st.duration = some d → (consumeChar st c).duration = some d) := by
  refine ⟨?_, by decide, by decide, ?_, ?_⟩
  · intro ds1 ds2 ds3 ds4 v1 v2 v3 h1 h2 h3
    have hd1 := List.all_eq_true.mp (parseNatDigits_digits h1)
    have hd2 := List.all_eq_true.mp (parseNatDigits_digits h2)
    have hd3 := List.all_eq_true.mp (parseNatDigits_digits h3)
    have hnodot : ∀ c ∈ ds1 ++ (':' :: (ds2 ++ (':' :: ds3))), c ≠ '.' := by
      intro c hc
      rcases List.mem_append.mp hc with h | h
      · exact (digit_ne_colon_dot (hd1 c h)).2
      · rcases List.mem_cons.mp h with h | h
        · subst h; decide
        · rcases List.mem_append.mp h with h | h
          · exact (digit_ne_colon_dot (hd2 c h)).2
          · rcases List.mem_cons.mp h with h | h
            · subst h; decide
            · exact (digit_ne_colon_dot (hd3 c h)).2
    have hfull : ds1 ++ ':' :: ds2 ++ ':' :: ds3 ++ '.' :: ds4
        = (ds1 ++ (':' :: (ds2 ++ (':' :: ds3)))) ++ ('.' :: ds4) := by
      simp
    rw [clockToSeconds, hfull, splitOnChar_append_sep '.' _ _ hnodot]
    rw [List.headD_cons]
    rw [splitOnChar_append_sep ':' ds1 _
        (fun c hc => (digit_ne_colon_dot (hd1 c hc)).1),
      splitOnChar_append_sep ':' ds2 _
        (fun c hc => (digit_ne_colon_dot (hd2 c hc)).1),
      splitOnChar_of_no_sep ':' ds3
        (fun c hc => (digit_ne_colon_dot (hd3 c hc)).1)]
    simp [h1, h2, h3]
    ring
  · exact fun st line d hd => processLine_dur_some st line d hd
  · intro st c d hd
    by_cases hc : c = '\r'
    · subst hc
      rw [consumeChar_cr]
      exact processLine_dur_some _ _ d hd
    · rw [consumeChar_ne st c hc]
      exact hd

/-- C5 witness: the general conversion applied to the digit runs `12`, `34`,
`56` with fraction `789` yields `3600·12 + 60·34 + 56 = 45296`, and a state
with duration 42 keeps duration 42 across a further processed line. -/
theorem C5_timestamp_conversion_witness :
    clockToSeconds ("12".toList ++ ':' :: "34".toList ++ ':' :: "56".toList
        ++ '.' :: "789".toList) = some 45296
    ∧ (processLine ⟨[], [], some 42, []⟩ "Duration: 00:10:00.00".toList).duration
        = some 42 := by
  constructor
  · rw [C5_timestamp_conversion.1 "12".toList "34".toList "56".toList "789".toList
      12 34 56 (by decide) (by decide) (by decide)]
  · exact C5_timestamp_conversion.2.2.2.1 ⟨[], [], some 42, []⟩ _ 42 rfl

/-- C10: the accumulated diagnostic text is exactly the concatenation, in
stream order, of the carriage-return-terminated segments of the byte stream,
each stripped and followed by one newline; whatever follows the last
carriage return stays in the buffer and never reaches the diagnostics. -/
theorem C10_diagnostics_exact_lines :
    ∀ stream : List Char,
      convDiag stream
        = String.mk ((List.map (fun l => pyStrip l ++ ['\n']) (crChunks stream)).flatten)
      ∧ (runConv stream).buffer = crRest stream := by
  intro stream
  have h := consume_fold_lines stream initConvState
  refine ⟨?_, h.2⟩
  rw [convDiag, runConv] at *
  rw [h.1]
  rfl

/-! ### The C2 end-to-end scenario: three sources, bitrate 3000, no crop,
no subtitles, overwrite disabled, and the second output already existing. -/

/-- Options of the C2 scenario. -/
def batchCfg3 : Config :=
  { v_bitrate := "3000k", should_crop := false, subtitle_choice := .nosub,
    overwrite_output := false, listing := [], output_dir := "out" }

/-- The three scanned sources of the C2 scenario (16:9 material, ratio
`9/16`; the transcoder succeeds on each). -/
def batchSrc3 : List SrcFile :=
  [ { video := "a.mkv", ratio := 9/16, crop_cmd := "crop=480:360:80:0",
      subtitles := [], returncode := 0, stderrStream := [] },
    { video := "b.mkv", ratio := 9/16, crop_cmd := "crop=480:360:80:0",
      subtitles := [], returncode := 0, stderrStream := [] },
    { video := "c.mkv", ratio := 9/16, crop_cmd := "crop=480:360:80:0",
      subtitles := [], returncode := 0, stderrStream := [] } ]

/-- C2 counterexample: in the 3-file scenario the outcomes are indeed
`[Completed, Skipped, Completed]` in scan order, but the third progress
label is `" 2/3"`, not `" 3/3"`: the sequence counter `count` is incremented
only after a completed conversion, so the skipped second file leaves the
third file's label at `2/3` — the label `"3/3"` never appears. -/
theorem C2_counterexample :
    (runBatch batchCfg3 batchSrc3 ["out/b.avi"]).map Prod.snd
        = [Outcome.completed none RESOLUTION_16BY9 none, Outcome.skipped,
           Outcome.completed none RESOLUTION_16BY9 none]
    ∧ ((runBatch batchCfg3 batchSrc3 ["out/b.avi"]).map Prod.fst).getLast?
        = some "\r 2/3: Converting c.mkv..."
    ∧ pyIn "3/3".toList "\r 2/3: Converting c.mkv...".toList = false := by
  have hplan : planCropRes false (9/16 : ℚ) "crop=480:360:80:0"
      = (none, RESOLUTION_16BY9) := by
    rw [planCropRes_eq]
    norm_num
  have heq : runBatch batchCfg3 batchSrc3 ["out/b.avi"]
      = [("\r 1/3: Converting a.mkv...", .completed none RESOLUTION_16BY9 none),
         ("\r 2/3: Converting b.mkv...", .skipped),
         ("\r 2/3: Converting c.mkv...", .completed none RESOLUTION_16BY9 none)] := by
    simp only [runBatch, batchCfg3, batchSrc3, runBatchAux, hplan, resolveSubtitle]
    decide
  rw [heq]
  exact ⟨rfl, rfl, by decide⟩

/-- C2 (amended): the 3-file scenario yields
`[Completed, Skipped, Completed]` in scan order, with space-padded progress
labels `"1/3"`, `"2/3"` and again `"2/3"` — the 1-based counter behind the
labels advances only after a completed conversion, so the file after the
skip repeats index 2. -/
theorem C2_batch_scenario :
    runBatch batchCfg3 batchSrc3 ["out/b.avi"]
      = [("\r 1/3: Converting a.mkv...",
            Outcome.completed none RESOLUTION_16BY9 none),
         ("\r 2/3: Converting b.mkv...", Outcome.skipped),
         ("\r 2/3: Converting c.mkv...",
            Outcome.completed none RESOLUTION_16BY9 none)] := by
  have hplan : planCropRes false (9/16 : ℚ) "crop=480:360:80:0"
      = (none, RESOLUTION_16BY9) := by
    rw [planCropRes_eq]
    norm_num
  simp only [runBatch, batchCfg3, batchSrc3, runBatchAux, hplan, resolveSubtitle]
  decide

/-- C7: the transcode runner succeeds exactly on exit code 0; any non-zero
exit code raises an error carrying the full accumulated diagnostic text
(reported under the file's progress label), and once a `Failed` outcome is
recorded the batch ends — no outcome ever follows it. -/
theorem C7_failure_terminates_batch :
    (∀ (stream : List Char) (rc : Int),
        convertResult stream rc = Except.ok () ↔ rc = 0)
    ∧ (∀ (stream : List Char) (rc : Int), rc ≠ 0 →
        convertResult stream rc = Except.error (convDiag stream))
    ∧ (∀ (cfg : Config) (sources : List SrcFile) (existing : List String)
        (l₁ : List (String × Outcome)) (lbl d : String)
        (l₂ : List (String × Outcome)),
        runBatch cfg sources existing = l₁ ++ (lbl, Outcome.failed d) :: l₂ →
        l₂ = []) := by
  refine ⟨?_, ?_, ?_⟩
  · intro stream rc
    by_cases h : rc = 0 <;> simp [convertResult, h]
  · intro stream rc h
    simp [convertResult, h]
  · intro cfg sources existing l₁ lbl d l₂ h
    exact runBatchAux_failed_last cfg sources.length sources 1 existing l₁ lbl d l₂ h

/-- C7 witness: a stream of one diagnostic line with exit code 1 yields the
error carrying that line; a one-file batch whose transcoder exits 1 ends at
the `Failed` outcome with nothing after it. -/
theorem C7_failure_terminates_batch_witness :
    convertResult "boom\r".toList 1 = Except.error (convDiag "boom\r".toList)
    ∧ ([] : List (String × Outcome)) = [] := by
  refine ⟨C7_failure_terminates_batch.2.1 "boom\r".toList 1 (by decide), ?_⟩
  exact C7_failure_terminates_batch.2.2
    ⟨"3000k", false, .nosub, false, [], "out"⟩
    [⟨"f.mkv", 9/16, "crop=480:360:80:0", [], 1, []⟩] [] []
    "\r 1/1: Converting f.mkv..." "" [] (by decide)

end SMSVC
